import Mathlib

/-!
Shallow embedding of the task-manager core of `src/app.ts`: the `Task`
entity (validation, construction, partial update, JSON serialization) and
the `TaskManager` collection (filter / search / sort view, drag-and-drop
reorder, persistence to the browser's local storage).

Modelling conventions:
* Runtime values of the TypeScript string union types (`TaskStatus`,
  `TaskPriority`, sort keys) are plain `String`s, as they are at runtime.
* `Date` values are their millisecond timestamps (`Date.getTime()`), a `Nat`.
  `toISOString()` is an injective millisecond-precision encoding that
  `new Date(·)` parses back exactly, so the serialized `createdAt` field is
  modelled by the millisecond value itself.
* The nondeterministic inputs of `generateId` (`Date.now()` and
  `Math.random().toString(36).substr(2, 9)`) are explicit parameters: a
  millisecond clock reading and the random base-36 suffix string.
* A method that can throw is modelled with `Except String` (or, for
  `Task.update`, which mutates `this` before it may throw, as the pair of
  the object state after the call and the optionally thrown error).
* `localStorage` is the `storage` field of the manager state; a stored
  blob is either a well-formed JSON array of task records or `junk`
  (anything on which `JSON.parse` / array mapping throws).
* `String.prototype.trim` and `toLowerCase` are embedded as structural
  functions on the character list so that concrete instances reduce in the
  kernel; `includes` is contiguous-sublist containment;
  `localeCompare`-based title ordering is embedded as code-point order
  (the locale refinement plays no role in any claim).
-/

namespace App

/-- JS `String.prototype.trim`, left pass: drop leading whitespace. -/
def jsTrimLeftChars : List Char → List Char
  | [] => []
  | c :: cs => if c.isWhitespace then jsTrimLeftChars cs else c :: cs

/-- JS `String.prototype.trim`: drop leading and trailing whitespace. -/
def jsTrim (s : String) : String :=
  ⟨(jsTrimLeftChars (jsTrimLeftChars s.data).reverse).reverse⟩

/-- JS `String.prototype.toLowerCase`, character by character. -/
def jsToLower (s : String) : String :=
  ⟨s.data.map Char.toLower⟩

/-- JS `String.prototype.includes`: contiguous substring containment. -/
def jsIncludes (hay sub : String) : Bool :=
  decide (sub.data <:+: hay.data)

/-- The decimal digit characters used when a number is interpolated into a
template literal. -/
def digitChar (d : Nat) : Char :=
  match d with
  | 0 => '0' | 1 => '1' | 2 => '2' | 3 => '3' | 4 => '4'
  | 5 => '5' | 6 => '6' | 7 => '7' | 8 => '8' | _ => '9'

/-- Inverse digit table, used only to prove the decimal rendering injective. -/
def digitVal (c : Char) : Nat :=
  if c = '0' then 0 else if c = '1' then 1 else if c = '2' then 2
  else if c = '3' then 3 else if c = '4' then 4 else if c = '5' then 5
  else if c = '6' then 6 else if c = '7' then 7 else if c = '8' then 8 else 9

/-- Digit accumulation loop of the decimal rendering; `fuel` is a structural
bound (any `fuel ≥ n` gives the digits of `n` in front of `acc`). -/
def natDecAux (fuel : Nat) (n : Nat) (acc : List Char) : List Char :=
  match fuel with
  | 0 => acc
  | fuel + 1 => if n = 0 then acc else natDecAux fuel (n / 10) (digitChar (n % 10) :: acc)

/-- Decimal rendering of a natural number, as JS template interpolation of
`Date.now()` produces it. -/
def natDecimal (n : Nat) : String :=
  if n = 0 then "0" else ⟨natDecAux n n []⟩

/-- Value of a digit string, a left inverse of `natDecimal` on its image. -/
def lval (cs : List Char) : Nat :=
  cs.foldl (fun a c => 10 * a + digitVal c) 0

/-- The character list of a string contains no underscore (true of the
decimal timestamp and of the base-36 random suffix in a generated id). -/
def noUnderscore (s : String) : Prop :=
  ∀ c ∈ s.data, c ≠ '_'

/-- Runtime record of a task (`class Task` fields). -/
structure Task where
  id : String
  title : String
  description : String
  status : String
  priority : String
  createdAt : Nat
  color : String
deriving DecidableEq

/-- Serialized task record (`interface TaskData`); `createdAt` is the
millisecond value encoded by the ISO-8601 string. -/
structure TaskData where
  id : String
  title : String
  description : String
  status : String
  priority : String
  createdAt : Nat
  color : String
deriving DecidableEq

/-- The partial update record (`interface PartialTaskData`). -/
structure PartialTaskData where
  title : Option String := none
  description : Option String := none
  status : Option String := none
  priority : Option String := none
deriving DecidableEq

/-- The closed status set (`validStatuses` in `validateInputs` / `update`). -/
def validStatuses : List String := ["à faire", "en cours", "terminée", "bloquée"]

/-- Error message thrown for a blank title. -/
def titleEmptyError : String := "Le titre de la tâche ne peut pas être vide"

/-- Error message thrown for a status outside the closed set. -/
def invalidStatusError : String :=
  "Statut invalide. Les statuts autorisés sont : à faire, en cours, terminée, bloquée"

/-- `Task.getColorByStatus`: the fixed status → display color map. The
`else` branch is the `undefined` a JS record lookup yields off the closed
set; every call site runs after status validation, so it is dead code. -/
def Task.getColorByStatus (status : String) : String :=
  if status = "à faire" then "#3498db"
  else if status = "en cours" then "#f39c12"
  else if status = "terminée" then "#27ae60"
  else if status = "bloquée" then "#e74c3c"
  else "undefined"

/-- `Task.validateInputs`: a falsy or whitespace-only title, or a status
outside the closed set, throws. (`!title || title.trim().length === 0` is
equivalent to `title.trim() === ""`.) -/
def Task.validateInputs (title status : String) : Except String Unit :=
  if jsTrim title = "" then .error titleEmptyError
  else if !(validStatuses.contains status) then .error invalidStatusError
  else .ok ()

/-- `Task.generateId`, with the clock reading and random suffix explicit:
`` `task_${Date.now()}_${Math.random().toString(36).substr(2, 9)}` ``. -/
def Task.generateId (nowMs : Nat) (rand : String) : String :=
  "task_" ++ natDecimal nowMs ++ "_" ++ rand

/-- Field assignments of the `Task` constructor once validation passed. -/
def Task.buildNew (title description status priority : String)
    (nowMs : Nat) (rand : String) : Task :=
  { id := Task.generateId nowMs rand
    title := jsTrim title
    description := jsTrim description
    status := status
    priority := priority
    createdAt := nowMs
    color := Task.getColorByStatus status }

/-- The `Task` constructor (`new Task(title, description, status, priority)`):
validates, then assigns the fields, deriving `color` from `status`. -/
def Task.create (title description status priority : String)
    (nowMs : Nat) (rand : String) : Except String Task :=
  match Task.validateInputs title status with
  | .error e => .error e
  | .ok _ => .ok (Task.buildNew title description status priority nowMs rand)

/-- Tail of `Task.update` after the status block: the priority field is
stored without any validation. -/
def Task.updateAfterStatus (t : Task) (p : PartialTaskData) : Task × Option String :=
  match p.priority with
  | some pr => ({ t with priority := pr }, none)
  | none => (t, none)

/-- Middle of `Task.update`: apply a supplied description, then check and
apply a supplied status (recomputing `color`), throwing on an invalid one.
The state mutated so far is returned alongside the thrown error. -/
def Task.updateAfterTitle (t : Task) (p : PartialTaskData) : Task × Option String :=
  let t2 := match p.description with
    | some d => { t with description := jsTrim d }
    | none => t
  match p.status with
  | some st =>
    if validStatuses.contains st then
      Task.updateAfterStatus { t2 with status := st, color := Task.getColorByStatus st } p
    else (t2, some invalidStatusError)
  | none => Task.updateAfterStatus t2 p

/-- `Task.update(partialData)`: applies the supplied fields in source order
(title check+assign, description assign, status check+assign+color,
priority assign). The result is the object state after the call paired
with the error thrown, if any — the source mutates `this` field by field,
so fields assigned before a failed check stay assigned. -/
def Task.update (t : Task) (p : PartialTaskData) : Task × Option String :=
  match p.title with
  | some ti =>
    if jsTrim ti = "" then (t, some titleEmptyError)
    else Task.updateAfterTitle { t with title := jsTrim ti } p
  | none => Task.updateAfterTitle t p

/-- `Task.toJSON()`: the plain record of the fields (`createdAt` via its
ISO-8601 millisecond encoding, see the header). -/
def Task.toJSON (t : Task) : TaskData :=
  { id := t.id, title := t.title, description := t.description,
    status := t.status, priority := t.priority,
    createdAt := t.createdAt, color := t.color }

/-- `Task.fromJSON(data)`: runs the constructor on the stored fields (hence
re-validates title and status, and re-trims), then overwrites `id`,
`createdAt` and `color` with the stored values verbatim. The constructor's
generated id, clock reading and derived color are all discarded. -/
def Task.fromJSON (d : TaskData) : Except String Task :=
  match Task.validateInputs d.title d.status with
  | .error e => .error e
  | .ok _ =>
    .ok { id := d.id
          title := jsTrim d.title
          description := jsTrim d.description
          status := d.status
          priority := d.priority
          createdAt := d.createdAt
          color := d.color }

/-- The claimed invariant: the display color is the function value of the
status under the fixed map. -/
def Task.colorInv (t : Task) : Prop :=
  t.color = Task.getColorByStatus t.status

/-- A persisted `localStorage` blob: either a well-formed JSON array of
task records, or anything on which parsing / array mapping throws. -/
inductive Stored where
  | json (data : List TaskData)
  | junk
deriving DecidableEq

/-- The `TaskManager` state: the ordered task sequence, the transient view
state (filter / lowercased search text / sort key), and the persisted
store. -/
structure ManagerState where
  tasks : List Task
  currentFilter : String
  currentSearch : String
  currentSort : String
  storage : Option Stored
deriving DecidableEq

/-- Field initializers of the `TaskManager` constructor (before `load()` and
`addSampleData()` run), with the pre-existing store contents. -/
def TaskManager.initState (storage : Option Stored) : ManagerState :=
  { tasks := [], currentFilter := "all", currentSearch := "",
    currentSort := "date-desc", storage := storage }

/-- `TaskManager.save()`: serialize the full ordered sequence into the
single stored blob. (The source swallows a storage exception; success is
modelled.) -/
def TaskManager.save (s : ManagerState) : ManagerState :=
  { s with storage := some (.json (s.tasks.map Task.toJSON)) }

/-- Body of the `try` block of `TaskManager.load()`: a missing value keeps
the current tasks, junk makes `JSON.parse` throw, and a parsed array is
mapped through `Task.fromJSON`, which throws on an invalid record. -/
def TaskManager.loadAttempt (stored : Option Stored) (prev : List Task) :
    Except String (List Task) :=
  match stored with
  | none => .ok prev
  | some .junk => .error "SyntaxError: JSON.parse"
  | some (.json ds) => ds.mapM Task.fromJSON

/-- `TaskManager.load()`: the whole body is wrapped in `try`/`catch`; any
error is caught and replaced by the empty collection. -/
def TaskManager.load (s : ManagerState) : ManagerState :=
  match TaskManager.loadAttempt s.storage s.tasks with
  | .ok ts => { s with tasks := ts }
  | .error _ => { s with tasks := [] }

/-- The priority ordinal map of the `priority-desc` / `priority-asc`
comparators (`haute: 3, moyenne: 2, basse: 1`); off the closed set the JS
lookup is `undefined` (never reached by program-made tasks), embedded as 0. -/
def priorityOrder (p : String) : Nat :=
  if p = "haute" then 3 else if p = "moyenne" then 2
  else if p = "basse" then 1 else 0

/-- The sort comparator of `getFilteredTasks` as a boolean `≤`-relation:
`sortLe key a b` iff the JS comparator value `cmp(a, b) ≤ 0`. The stable
`Array.prototype.sort` (ES2019) is then `mergeSort` with this relation;
the `default` comparator branch returns 0 (all pairs tie), under which a
stable sort is the identity. -/
def sortLe (key : String) (a b : Task) : Bool :=
  if key = "date-asc" then a.createdAt ≤ b.createdAt
  else if key = "date-desc" then b.createdAt ≤ a.createdAt
  else if key = "title-asc" then decide (a.title ≤ b.title)
  else if key = "title-desc" then decide (b.title ≤ a.title)
  else if key = "priority-desc" then priorityOrder b.priority ≤ priorityOrder a.priority
  else if key = "priority-asc" then priorityOrder a.priority ≤ priorityOrder b.priority
  else true

/-- `TaskManager.getFilteredTasks()`: copy the stored sequence, apply the
status filter (skipped on `"all"`), the case-insensitive substring search
on title or description (skipped on empty search text), and the sort
(skipped on `"manual"`). Only the local copy is sorted; the state is
untouched. -/
def TaskManager.getFilteredTasks (s : ManagerState) : List Task :=
  let filtered0 := s.tasks
  let filtered1 :=
    if s.currentFilter ≠ "all" then
      filtered0.filter (fun t => t.status = s.currentFilter)
    else filtered0
  let filtered2 :=
    if s.currentSearch ≠ "" then
      filtered1.filter (fun t =>
        jsIncludes (jsToLower t.title) s.currentSearch ||
        jsIncludes (jsToLower t.description) s.currentSearch)
    else filtered1
  if s.currentSort ≠ "manual" then filtered2.mergeSort (sortLe s.currentSort)
  else filtered2

/-- The `getFilteredTasks` method as a state transformer: it reads the
state and returns the view; no field of `this` is assigned. -/
def TaskManager.getFilteredTasksM (s : ManagerState) : List Task × ManagerState :=
  (TaskManager.getFilteredTasks s, s)

/-- `TaskManager.filterByStatus(status)`: replace the filter, refresh the
UI, return the visible list. -/
def TaskManager.filterByStatus (status : String) (s : ManagerState) :
    List Task × ManagerState :=
  let s1 := { s with currentFilter := status }
  (TaskManager.getFilteredTasks s1, s1)

/-- `TaskManager.search(text)`: store the lowercased search text, refresh
the UI, return the visible list. -/
def TaskManager.search (text : String) (s : ManagerState) :
    List Task × ManagerState :=
  let s1 := { s with currentSearch := jsToLower text }
  (TaskManager.getFilteredTasks s1, s1)

/-- `TaskManager.sortByDate(order)`. -/
def TaskManager.sortByDate (ord : String) (s : ManagerState) :
    List Task × ManagerState :=
  let s1 := { s with currentSort := "date-" ++ ord }
  (TaskManager.getFilteredTasks s1, s1)

/-- `TaskManager.sortByTitle(order)`. -/
def TaskManager.sortByTitle (ord : String) (s : ManagerState) :
    List Task × ManagerState :=
  let s1 := { s with currentSort := "title-" ++ ord }
  (TaskManager.getFilteredTasks s1, s1)

/-- `TaskManager.sortByPriority(order)`. -/
def TaskManager.sortByPriority (ord : String) (s : ManagerState) :
    List Task × ManagerState :=
  let s1 := { s with currentSort := "priority-" ++ ord }
  (TaskManager.getFilteredTasks s1, s1)

/-- `TaskManager.reorderTasks(draggedId, targetId)`: look up both indices
(`findIndex`, first match); if either is `-1` return without any effect;
otherwise swap the two positions, set the sort key to `'manual'`, and
persist. The source never compares the two ids. -/
def TaskManager.reorderTasks (draggedId targetId : String) (s : ManagerState) :
    ManagerState :=
  let l := s.tasks
  let i := l.findIdx (fun t => t.id = draggedId)
  let j := l.findIdx (fun t => t.id = targetId)
  if h : i < l.length ∧ j < l.length then
    let draggedTask := l.get ⟨i, h.1⟩
    let targetTask := l.get ⟨j, h.2⟩
    let l2 := (l.set i targetTask).set j draggedTask
    { s with tasks := l2, currentSort := "manual",
             storage := some (.json (l2.map Task.toJSON)) }
  else s

/-- A task with the given id is present in the collection. -/
def TaskManager.present (s : ManagerState) (a : String) : Prop :=
  ∃ t ∈ s.tasks, t.id = a

instance (s : ManagerState) (a : String) : Decidable (TaskManager.present s a) :=
  inferInstanceAs (Decidable (∃ t ∈ s.tasks, t.id = a))

/-- A startup `load()` fails: the stored value is missing, is unparseable,
or holds a record the `Task` constructor rejects. -/
def loadFailure (st : Option Stored) : Prop :=
  st = none ∨ st = some Stored.junk ∨
    ∃ ds e, st = some (Stored.json ds) ∧ List.mapM Task.fromJSON ds = Except.error e

/-- A stored record whose color diverges from the color of its status. -/
def cexBadColorData : TaskData :=
  ⟨"tid", "Titre", "", "à faire", "moyenne", 0, "#000000"⟩

/-- The task `Task.fromJSON` builds from `cexBadColorData`. -/
def cexBadColorTask : Task :=
  ⟨"tid", "Titre", "", "à faire", "moyenne", 0, "#000000"⟩

/-- A freshly constructed concrete task. -/
def wNewTask : Task := Task.buildNew "Tâche exemple" "" "à faire" "moyenne" 0 "abc123def"

/-- A status-only update record. -/
def wStatusPartial : PartialTaskData := ⟨none, none, some "en cours", none⟩

/-- A concrete task to update. -/
def cexUpdateTask : Task := ⟨"id1", "Ancien titre", "", "à faire", "moyenne", 0, "#3498db"⟩

/-- An update record carrying a valid new title together with a status
outside the closed set. -/
def cexUpdatePartial : PartialTaskData :=
  ⟨some "Nouveau titre", none, some "statut-inconnu", none⟩

/-- A concrete well-formed task for round-trip and update checks. -/
def wRoundTask : Task := ⟨"idX", "Titre", "Desc", "en cours", "haute", 12345, "#f39c12"⟩

/-- Concrete tasks of mixed status for collection-level checks. -/
def wTaskDone1 : Task := ⟨"a", "Alpha", "", "terminée", "moyenne", 5, "#27ae60"⟩

/-- A to-do task between the two done ones. -/
def wTaskTodo : Task := ⟨"b", "Beta", "", "à faire", "moyenne", 9, "#3498db"⟩

/-- A second done task, created later than the first. -/
def wTaskDone2 : Task := ⟨"c", "Gamma", "", "terminée", "haute", 7, "#27ae60"⟩

/-- A concrete state viewing done tasks newest-first. -/
def wState4 : ManagerState :=
  ⟨[wTaskDone1, wTaskTodo, wTaskDone2], "terminée", "", "date-desc", none⟩

/-- A concrete unfiltered state for reorder checks. -/
def wState5 : ManagerState :=
  ⟨[wTaskDone1, wTaskTodo, wTaskDone2], "all", "", "date-desc", none⟩

/-- A one-task state whose sort key is not `'manual'`. -/
def cexState6 : ManagerState := ⟨[wTaskDone1], "all", "", "date-desc", none⟩

/-! ## Theorems -/

/-- `Task.updateAfterStatus` never touches title, description, status or
color, so it preserves the color invariant. -/
theorem updateAfterStatus_colorInv (t : App.Task) (p : PartialTaskData)
    (h : Task.colorInv t) : Task.colorInv (Task.updateAfterStatus t p).1 := by
  unfold Task.updateAfterStatus
  cases p.priority with
  | none => exact h
  | some pr => exact h

/-- `Task.updateAfterTitle` preserves the color invariant: a supplied
status re-derives the color, and otherwise status and color are kept. -/
theorem updateAfterTitle_colorInv (t : App.Task) (p : PartialTaskData)
    (h : Task.colorInv t) : Task.colorInv (Task.updateAfterTitle t p).1 := by
  unfold Task.updateAfterTitle
  cases hd : p.description with
  | none =>
    cases hs : p.status with
    | none => exact updateAfterStatus_colorInv t p h
    | some st =>
      by_cases hv : validStatuses.contains st
      · simp only [hv, if_true]
        exact updateAfterStatus_colorInv _ p rfl
      · simp only [hv, if_false]
        exact h
  | some d =>
    cases hs : p.status with
    | none => exact updateAfterStatus_colorInv _ p h
    | some st =>
      by_cases hv : validStatuses.contains st
      · simp only [hv, if_true]
        exact updateAfterStatus_colorInv _ p rfl
      · simp only [hv, if_false]
        exact h

/-- Claim C1 (amended): the color invariant `color = colorOf(status)` is
established by the constructor and preserved by `Task.update` (also by a
failing one); but `Task.fromJSON` (hence `TaskManager.load`) copies the
stored `color` and `status` fields verbatim without re-deriving, so after
deserialization the invariant holds only when the stored record already
satisfies it. -/
theorem C1_color_invariant :
    (∀ ti de st pr n r t, Task.create ti de st pr n r = Except.ok t → Task.colorInv t)
  ∧ (∀ (t : App.Task) (p : PartialTaskData), Task.colorInv t → Task.colorInv (Task.update t p).1)
  ∧ (∀ d t, Task.fromJSON d = Except.ok t → t.color = d.color ∧ t.status = d.status) := by
  refine ⟨?_, ?_, ?_⟩
  · intro ti de st pr n r t h
    unfold Task.create at h
    cases hv : Task.validateInputs ti st with
    | error e => rw [hv] at h; cases h
    | ok u => rw [hv] at h; cases h; rfl
  · intro t p h
    unfold Task.update
    cases hti : p.title with
    | none => exact updateAfterTitle_colorInv t p h
    | some ti =>
      by_cases htr : jsTrim ti = ""
      · simp only [htr, if_true]
        exact h
      · simp only [htr, if_false]
        exact updateAfterTitle_colorInv _ p h
  · intro d t h
    unfold Task.fromJSON at h
    cases hv : Task.validateInputs d.title d.status with
    | error e => rw [hv] at h; cases h
    | ok u => rw [hv] at h; cases h; exact ⟨rfl, rfl⟩

/-- Claim C1, counterexample to the claim as stated: deserializing a stored
record whose color is `"#000000"` but whose status is `'à faire'` succeeds
and yields a task whose color differs from `colorOf(status) = "#3498db"`. -/
theorem C1_counterexample :
    Task.fromJSON cexBadColorData = Except.ok cexBadColorTask
  ∧ cexBadColorTask.color ≠ Task.getColorByStatus cexBadColorTask.status :=
  ⟨rfl, by decide⟩

/-- Claim C1, witness: the amended theorem applied at concrete inputs. -/
theorem C1_color_invariant_witness :
    Task.colorInv wNewTask
  ∧ Task.colorInv (Task.update wNewTask wStatusPartial).1
  ∧ (cexBadColorTask.color = cexBadColorData.color
      ∧ cexBadColorTask.status = cexBadColorData.status) :=
  ⟨C1_color_invariant.1 "Tâche exemple" "" "à faire" "moyenne" 0 "abc123def" wNewTask rfl,
   C1_color_invariant.2.1 wNewTask wStatusPartial rfl,
   C1_color_invariant.2.2 cexBadColorData cexBadColorTask rfl⟩

/-- Claim C2 (amended): an update whose status field is present but outside
the closed set throws a validation error, and status, priority and color
are left unchanged by the call; the operation is however not atomic:
title and description supplied in the same record are applied before the
status check fails, and the task is wholly unchanged only when neither is
supplied. -/
theorem C2_update_invalid_status (t : App.Task) (p : PartialTaskData) (st : String)
    (hst : p.status = some st) (hv : validStatuses.contains st = false) :
    (Task.update t p).2.isSome = true
  ∧ (Task.update t p).1.status = t.status
  ∧ (Task.update t p).1.priority = t.priority
  ∧ (Task.update t p).1.color = t.color
  ∧ (p.title = none → p.description = none → (Task.update t p).1 = t) := by
  have happ : ∀ t2 : App.Task,
      (Task.updateAfterTitle t2 p).2 = some invalidStatusError
    ∧ (Task.updateAfterTitle t2 p).1.status = t2.status
    ∧ (Task.updateAfterTitle t2 p).1.priority = t2.priority
    ∧ (Task.updateAfterTitle t2 p).1.color = t2.color
    ∧ (p.description = none → (Task.updateAfterTitle t2 p).1 = t2) := by
    intro t2
    have hv2 : ¬ st ∈ validStatuses := by simpa using hv
    unfold Task.updateAfterTitle
    rw [hst]
    cases hd : p.description with
    | none => simp [hv2]
    | some d => simp [hv2]
  cases hti : p.title with
  | none =>
    unfold Task.update
    rw [hti]
    refine ⟨?_, (happ t).2.1, (happ t).2.2.1, (happ t).2.2.2.1, ?_⟩
    · rw [(happ t).1]; rfl
    · intro _ hd; exact (happ t).2.2.2.2 hd
  | some ti =>
    unfold Task.update
    rw [hti]
    by_cases htr : jsTrim ti = ""
    · simp [htr]
    · simp only [htr, if_false]
      refine ⟨?_, (happ _).2.1, (happ _).2.2.1, (happ _).2.2.2.1, fun hcon _ => by cases hcon⟩
      rw [(happ _).1]; rfl

/-- Claim C2, counterexample to the claim as stated: updating a task with a
valid new title together with an invalid status throws the invalid-status
error, yet the title has already been modified by the call — the
operation is not all-or-nothing. -/
theorem C2_counterexample :
    (Task.update cexUpdateTask cexUpdatePartial).2 = some invalidStatusError
  ∧ (Task.update cexUpdateTask cexUpdatePartial).1.title ≠ cexUpdateTask.title := by
  exact ⟨rfl, by decide⟩

/-- Claim C2, witness: the amended theorem applied at a concrete task and a
status-only invalid update. -/
theorem C2_update_invalid_status_witness :
    (Task.update cexUpdateTask ⟨none, none, some "statut-inconnu", none⟩).2.isSome = true
  ∧ (Task.update cexUpdateTask ⟨none, none, some "statut-inconnu", none⟩).1.status = cexUpdateTask.status
  ∧ (Task.update cexUpdateTask ⟨none, none, some "statut-inconnu", none⟩).1.priority = cexUpdateTask.priority
  ∧ (Task.update cexUpdateTask ⟨none, none, some "statut-inconnu", none⟩).1.color = cexUpdateTask.color
  ∧ (none = (none : Option String) → none = (none : Option String) →
      (Task.update cexUpdateTask ⟨none, none, some "statut-inconnu", none⟩).1 = cexUpdateTask) :=
  C2_update_invalid_status cexUpdateTask ⟨none, none, some "statut-inconnu", none⟩
    "statut-inconnu" rfl (by decide)

/-- Claim C3: for every task whose title and description are already
trimmed, whose title is non-empty and whose status is in the closed set —
as holds of every task the program constructs — `fromJSON ∘ toJSON` is the
identity: id, title, description, status, priority, createdAt (through the
millisecond-exact ISO round-trip) and color are all reproduced. -/
theorem C3_roundtrip (t : App.Task) (htr : jsTrim t.title = t.title)
    (hne : t.title ≠ "") (hdr : jsTrim t.description = t.description)
    (hs : validStatuses.contains t.status = true) :
    Task.fromJSON (Task.toJSON t) = Except.ok t := by
  cases t with
  | mk id ti de st pr ca co =>
    simp only at htr hne hdr hs
    have hs2 : st ∈ validStatuses := by simpa using hs
    unfold Task.fromJSON Task.toJSON Task.validateInputs
    simp [htr, hne, hdr, hs2]

/-- Claim C3, witness: the round-trip theorem at a concrete task. -/
theorem C3_roundtrip_witness :
    Task.fromJSON (Task.toJSON wRoundTask) = Except.ok wRoundTask :=
  C3_roundtrip wRoundTask rfl (by decide) rfl (by decide)

/-- The `date-desc` comparator accepts `(a, b)` exactly when `b` was not
created after `a` (JS `b.createdAt - a.createdAt ≤ 0`). -/
theorem sortLe_dateDesc (a b : App.Task) :
    sortLe "date-desc" a b = decide (b.createdAt ≤ a.createdAt) := rfl

/-- With filter `'terminée'`, empty search and sort `'date-desc'`, the view
is the stable sort of the done-filtered copy. -/
theorem getFilteredTasks_done_dateDesc (s : ManagerState)
    (hf : s.currentFilter = "terminée") (hse : s.currentSearch = "")
    (hso : s.currentSort = "date-desc") :
    TaskManager.getFilteredTasks s =
      (s.tasks.filter (fun t => t.status = "terminée")).mergeSort (sortLe "date-desc") := by
  unfold TaskManager.getFilteredTasks
  rw [hf, hse, hso]
  simp

/-- Claim C4: with the status filter on the done status `'terminée'`, empty
search text and sort key `'date-desc'`, `getFilteredTasks()` returns
exactly the tasks whose status is `'terminée'` (a permutation of the
done-filtered sequence), ordered by non-increasing `createdAt` — newest
first. -/
theorem C4_done_view (s : ManagerState)
    (hf : s.currentFilter = "terminée") (hse : s.currentSearch = "")
    (hso : s.currentSort = "date-desc") :
    (TaskManager.getFilteredTasks s).Perm
        (s.tasks.filter (fun t => t.status = "terminée"))
  ∧ (TaskManager.getFilteredTasks s).Pairwise
        (fun a b => b.createdAt ≤ a.createdAt) := by
  have hview := getFilteredTasks_done_dateDesc s hf hse hso
  constructor
  · rw [hview]
    exact List.mergeSort_perm _ _
  · rw [hview]
    have htrans : ∀ a b c : App.Task, sortLe "date-desc" a b = true →
        sortLe "date-desc" b c = true → sortLe "date-desc" a c = true := by
      intro a b c hab hbc
      rw [sortLe_dateDesc] at hab hbc ⊢
      exact decide_eq_true (Nat.le_trans (of_decide_eq_true hbc) (of_decide_eq_true hab))
    have htot : ∀ a b : App.Task,
        (sortLe "date-desc" a b || sortLe "date-desc" b a) = true := by
      intro a b
      rw [sortLe_dateDesc, sortLe_dateDesc]
      rcases Nat.le_total a.createdAt b.createdAt with h | h
      · simp [h]
      · simp [h]
    have hs := List.sorted_mergeSort htrans htot
      (s.tasks.filter (fun t => t.status = "terminée"))
    exact hs.imp (fun hab => of_decide_eq_true (by rwa [sortLe_dateDesc] at hab))

/-- Claim C4, witness: the done view of a concrete three-task state. -/
theorem C4_done_view_witness :
    (TaskManager.getFilteredTasks wState4).Perm
        (wState4.tasks.filter (fun t => t.status = "terminée"))
  ∧ (TaskManager.getFilteredTasks wState4).Pairwise
        (fun a b => b.createdAt ≤ a.createdAt) :=
  C4_done_view wState4 rfl rfl rfl

/-- Element of a doubly-updated list, by cases on the position. -/
theorem getElem_set_set {α : Type _} {l : List α} {i j k : ℕ} {x y : α}
    (hk : k < l.length) (hk2 : k < ((l.set i x).set j y).length) :
    ((l.set i x).set j y)[k] = if j = k then y else if i = k then x else l[k] := by
  simp [List.getElem_set]

/-- Under unique ids, tasks at distinct positions have distinct ids. -/
theorem nodup_id_ne {l : List App.Task} (hnd : (l.map Task.id).Nodup)
    {k i : ℕ} (hk : k < l.length) (hi : i < l.length) (hne : k ≠ i) :
    l[k].id ≠ l[i].id := by
  intro h
  have hkm : k < (l.map Task.id).length := by simpa using hk
  have him : i < (l.map Task.id).length := by simpa using hi
  have hm : (l.map Task.id)[k] = (l.map Task.id)[i] := by
    rw [List.getElem_map, List.getElem_map]
    exact h
  exact hne (hnd.getElem_inj_iff.mp hm)

/-- After swapping positions `i` and `j`, the first index carrying the id
that lived at `i` is `j` (ids being unique in the collection). -/
theorem findIdx_swap {l : List App.Task} (hnd : (l.map Task.id).Nodup)
    {i j : ℕ} (hi : i < l.length) (hj : j < l.length) (hij : i ≠ j) :
    ((l.set i l[j]).set j l[i]).findIdx (fun t => t.id = l[i].id) = j := by
  have hlen : ((l.set i l[j]).set j l[i]).length = l.length := by simp
  have hjlen : j < ((l.set i l[j]).set j l[i]).length := by rw [hlen]; exact hj
  rw [List.findIdx_eq hjlen]
  constructor
  · have : ((l.set i l[j]).set j l[i])[j] = l[i] := by
      rw [getElem_set_set hj hjlen]
      simp
    rw [this]
    simp
  · intro k hkj
    have hk : k < l.length := Nat.lt_trans hkj hj
    have hk2 : k < ((l.set i l[j]).set j l[i]).length := by rw [hlen]; exact hk
    rw [getElem_set_set hk hk2]
    rw [if_neg (Nat.ne_of_gt hkj)]
    by_cases hki : i = k
    · rw [if_pos hki]
      simp only [decide_eq_false_iff_not]
      exact nodup_id_ne hnd hj hi (Ne.symm hij)
    · rw [if_neg hki]
      simp only [decide_eq_false_iff_not]
      exact nodup_id_ne hnd hk hi (fun h => hki h.symm)

/-- Swapping positions `i` and `j` and then swapping them back restores the
list. -/
theorem swap_swap_eq {α : Type _} (l : List α) (i j : ℕ) (hi : i < l.length) (hj : j < l.length)
    (hil2 : i < ((l.set i l[j]).set j l[i]).length)
    (hjl2 : j < ((l.set i l[j]).set j l[i]).length)
    (hij : i ≠ j) :
    (((l.set i l[j]).set j l[i]).set j ((l.set i l[j]).set j l[i])[i]).set i
      ((l.set i l[j]).set j l[i])[j] = l := by
  have e1 : ((l.set i l[j]).set j l[i])[j] = l[i] := by
    rw [getElem_set_set hj hjl2, if_pos rfl]
  have e2 : ((l.set i l[j]).set j l[i])[i] = l[j] := by
    rw [getElem_set_set hi hil2, if_neg (fun h => hij h.symm), if_pos rfl]
  rw [e1, e2]
  apply List.ext_getElem
  · simp
  · intro k hk1 hk2
    have hkl : k < l.length := hk2
    have hkl2 : k < ((l.set i l[j]).set j l[i]).length := by simpa using hk2
    rw [getElem_set_set hkl2 hk1]
    by_cases h1 : i = k
    · rw [if_pos h1]; subst h1; rfl
    · rw [if_neg h1]
      by_cases h2 : j = k
      · rw [if_pos h2]; subst h2; rfl
      · rw [if_neg h2, getElem_set_set hkl hkl2, if_neg h2, if_neg h1]

/-- Writing a position's own element back, twice, changes nothing. -/
theorem set_self_twice {α : Type _} (l : List α) (i : ℕ) (hi : i < l.length) :
    (l.set i l[i]).set i l[i] = l := by
  apply List.ext_getElem
  · simp
  · intro k hk1 hk2
    have hkl2 : k < ((l.set i l[i]).set i l[i]).length := hk1
    rw [getElem_set_set hk2 hkl2]
    by_cases h : i = k
    · rw [if_pos h]; subst h; rfl
    · rw [if_neg h, if_neg h]

/-- When both ids are found, `reorderTasks` swaps the two indices and sets
the sort key to `'manual'`. -/
theorem reorderTasks_present (a b : String) (s : ManagerState)
    (hi : s.tasks.findIdx (fun t => t.id = a) < s.tasks.length)
    (hj : s.tasks.findIdx (fun t => t.id = b) < s.tasks.length) :
    (TaskManager.reorderTasks a b s).tasks =
        (s.tasks.set (s.tasks.findIdx (fun t => t.id = a))
            s.tasks[s.tasks.findIdx (fun t => t.id = b)]).set
          (s.tasks.findIdx (fun t => t.id = b))
          s.tasks[s.tasks.findIdx (fun t => t.id = a)]
  ∧ (TaskManager.reorderTasks a b s).currentSort = "manual" := by
  unfold TaskManager.reorderTasks
  rw [dif_pos ⟨hi, hj⟩]
  exact ⟨rfl, rfl⟩

/-- When either id is not found (`findIndex === -1`), `reorderTasks`
returns without touching the state. -/
theorem reorderTasks_absent (a b : String) (s : ManagerState)
    (h : ¬(s.tasks.findIdx (fun t => t.id = a) < s.tasks.length ∧
           s.tasks.findIdx (fun t => t.id = b) < s.tasks.length)) :
    TaskManager.reorderTasks a b s = s := by
  unfold TaskManager.reorderTasks
  rw [dif_neg h]

/-- An id is present iff `findIndex` does not report `-1`. -/
theorem present_iff_findIdx_lt (s : ManagerState) (a : String) :
    TaskManager.present s a ↔
      s.tasks.findIdx (fun t => t.id = a) < s.tasks.length := by
  rw [List.findIdx_lt_length]
  unfold TaskManager.present
  simp

/-- Claim C5: on a collection with unique ids in which `a` and `b` are both
present and distinct, `reorder(a, b)` twice restores the original task
order, and each `reorder` call sets the active sort key to `'manual'`. -/
theorem C5_reorder_involution (s : ManagerState) (a b : String)
    (hnd : (s.tasks.map Task.id).Nodup)
    (ha : ∃ t ∈ s.tasks, t.id = a) (hb : ∃ t ∈ s.tasks, t.id = b) (hab : a ≠ b) :
    (TaskManager.reorderTasks a b (TaskManager.reorderTasks a b s)).tasks = s.tasks
  ∧ (TaskManager.reorderTasks a b s).currentSort = "manual"
  ∧ (TaskManager.reorderTasks a b (TaskManager.reorderTasks a b s)).currentSort = "manual" := by
  have hi : s.tasks.findIdx (fun t => t.id = a) < s.tasks.length :=
    List.findIdx_lt_length.mpr (by simpa using ha)
  have hj : s.tasks.findIdx (fun t => t.id = b) < s.tasks.length :=
    List.findIdx_lt_length.mpr (by simpa using hb)
  have hia : s.tasks[s.tasks.findIdx (fun t => t.id = a)].id = a := by
    have := @List.findIdx_getElem App.Task (fun t => decide (t.id = a)) s.tasks hi
    simpa using this
  have hjb : s.tasks[s.tasks.findIdx (fun t => t.id = b)].id = b := by
    have := @List.findIdx_getElem App.Task (fun t => decide (t.id = b)) s.tasks hj
    simpa using this
  have hij : s.tasks.findIdx (fun t => t.id = a) ≠ s.tasks.findIdx (fun t => t.id = b) := by
    intro h
    apply hab
    rw [← hia, ← hjb]
    simp only [h]
  obtain ⟨h1tasks, h1sort⟩ := reorderTasks_present a b s hi hj
  have hfi2l : ((s.tasks.set (s.tasks.findIdx (fun t => t.id = a))
          s.tasks[s.tasks.findIdx (fun t => t.id = b)]).set
            (s.tasks.findIdx (fun t => t.id = b))
            s.tasks[s.tasks.findIdx (fun t => t.id = a)]).findIdx
        (fun t => t.id = a) = s.tasks.findIdx (fun t => t.id = b) := by
    have h := findIdx_swap hnd hi hj hij
    rw [hia] at h
    exact h
  have hfj2l : ((s.tasks.set (s.tasks.findIdx (fun t => t.id = a))
          s.tasks[s.tasks.findIdx (fun t => t.id = b)]).set
            (s.tasks.findIdx (fun t => t.id = b))
            s.tasks[s.tasks.findIdx (fun t => t.id = a)]).findIdx
        (fun t => t.id = b) = s.tasks.findIdx (fun t => t.id = a) := by
    have hcomm : (s.tasks.set (s.tasks.findIdx (fun t => t.id = a))
          s.tasks[s.tasks.findIdx (fun t => t.id = b)]).set
            (s.tasks.findIdx (fun t => t.id = b))
            s.tasks[s.tasks.findIdx (fun t => t.id = a)] =
        (s.tasks.set (s.tasks.findIdx (fun t => t.id = b))
          s.tasks[s.tasks.findIdx (fun t => t.id = a)]).set
            (s.tasks.findIdx (fun t => t.id = a))
            s.tasks[s.tasks.findIdx (fun t => t.id = b)] :=
      List.set_comm _ _ _ hij
    rw [hcomm]
    have h := findIdx_swap hnd hj hi (Ne.symm hij)
    rw [hjb] at h
    exact h
  have hfi2 : (TaskManager.reorderTasks a b s).tasks.findIdx (fun t => t.id = a) =
      s.tasks.findIdx (fun t => t.id = b) := by
    rw [h1tasks]; exact hfi2l
  have hfj2 : (TaskManager.reorderTasks a b s).tasks.findIdx (fun t => t.id = b) =
      s.tasks.findIdx (fun t => t.id = a) := by
    rw [h1tasks]; exact hfj2l
  have hlen1 : (TaskManager.reorderTasks a b s).tasks.length = s.tasks.length := by
    rw [h1tasks]; simp
  have hi2 : (TaskManager.reorderTasks a b s).tasks.findIdx (fun t => t.id = a) <
      (TaskManager.reorderTasks a b s).tasks.length := by
    rw [hfi2, hlen1]; exact hj
  have hj2 : (TaskManager.reorderTasks a b s).tasks.findIdx (fun t => t.id = b) <
      (TaskManager.reorderTasks a b s).tasks.length := by
    rw [hfj2, hlen1]; exact hi
  obtain ⟨h2tasks, h2sort⟩ :=
    reorderTasks_present a b (TaskManager.reorderTasks a b s) hi2 hj2
  refine ⟨?_, h1sort, h2sort⟩
  rw [h2tasks]
  simp only [h1tasks]
  simp only [hfi2l, hfj2l]
  exact swap_swap_eq s.tasks _ _ hi hj (by simpa using hi) (by simpa using hj) hij

/-- Claim C5, witness: the involution on a concrete three-task state with
distinct present ids. -/
theorem C5_reorder_involution_witness :
    (TaskManager.reorderTasks "a" "c" (TaskManager.reorderTasks "a" "c" wState5)).tasks =
      wState5.tasks
  ∧ (TaskManager.reorderTasks "a" "c" wState5).currentSort = "manual"
  ∧ (TaskManager.reorderTasks "a" "c"
      (TaskManager.reorderTasks "a" "c" wState5)).currentSort = "manual" :=
  C5_reorder_involution wState5 "a" "c" (by decide) (by decide) (by decide) (by decide)

/-- Claim C6 (amended): `reorder(a, b)` swaps the positions, by index, of
the first tasks carrying the two ids; if either id is absent the call is a
complete no-op (state returned unchanged); but when the two ids are equal
and present — a case the source never guards against, though the
drag-and-drop caller does — the task sequence is unchanged while the sort
key is still set to `'manual'` and the state re-persisted. -/
theorem C6_reorder_swap (s : ManagerState) (a b : String) :
    ((¬ TaskManager.present s a ∨ ¬ TaskManager.present s b) →
        TaskManager.reorderTasks a b s = s)
  ∧ (a ≠ b →
      ∀ (hi : s.tasks.findIdx (fun t => t.id = a) < s.tasks.length)
        (hj : s.tasks.findIdx (fun t => t.id = b) < s.tasks.length)
        (hi2 : s.tasks.findIdx (fun t => t.id = a) <
          (TaskManager.reorderTasks a b s).tasks.length)
        (hj2 : s.tasks.findIdx (fun t => t.id = b) <
          (TaskManager.reorderTasks a b s).tasks.length),
        (TaskManager.reorderTasks a b s).tasks.length = s.tasks.length
      ∧ (TaskManager.reorderTasks a b s).tasks[s.tasks.findIdx (fun t => t.id = b)] =
          s.tasks[s.tasks.findIdx (fun t => t.id = a)]
      ∧ (TaskManager.reorderTasks a b s).tasks[s.tasks.findIdx (fun t => t.id = a)] =
          s.tasks[s.tasks.findIdx (fun t => t.id = b)]
      ∧ ∀ (k : ℕ) (hk : k < s.tasks.length)
          (hk2 : k < (TaskManager.reorderTasks a b s).tasks.length),
          k ≠ s.tasks.findIdx (fun t => t.id = a) →
          k ≠ s.tasks.findIdx (fun t => t.id = b) →
          (TaskManager.reorderTasks a b s).tasks[k] = s.tasks[k])
  ∧ (TaskManager.present s a →
      (TaskManager.reorderTasks a a s).tasks = s.tasks
    ∧ (TaskManager.reorderTasks a a s).currentSort = "manual") := by
  refine ⟨?_, ?_, ?_⟩
  · intro h
    apply reorderTasks_absent
    intro hcon
    rcases h with h | h
    · exact h ((present_iff_findIdx_lt s a).mpr hcon.1)
    · exact h ((present_iff_findIdx_lt s b).mpr hcon.2)
  · intro hab hi hj hi2 hj2
    have hia : s.tasks[s.tasks.findIdx (fun t => t.id = a)].id = a := by
      have := @List.findIdx_getElem App.Task (fun t => decide (t.id = a)) s.tasks hi
      simpa using this
    have hjb : s.tasks[s.tasks.findIdx (fun t => t.id = b)].id = b := by
      have := @List.findIdx_getElem App.Task (fun t => decide (t.id = b)) s.tasks hj
      simpa using this
    have hij : s.tasks.findIdx (fun t => t.id = a) ≠ s.tasks.findIdx (fun t => t.id = b) := by
      intro h
      apply hab
      rw [← hia, ← hjb]
      simp only [h]
    obtain ⟨h1tasks, _⟩ := reorderTasks_present a b s hi hj
    have hlen1 : (TaskManager.reorderTasks a b s).tasks.length = s.tasks.length := by
      rw [h1tasks]; simp
    refine ⟨hlen1, ?_, ?_, ?_⟩
    · have hjl : s.tasks.findIdx (fun t => t.id = b) <
          ((s.tasks.set (s.tasks.findIdx (fun t => t.id = a))
              s.tasks[s.tasks.findIdx (fun t => t.id = b)]).set
            (s.tasks.findIdx (fun t => t.id = b))
            s.tasks[s.tasks.findIdx (fun t => t.id = a)]).length := by
        simpa using hj
      simp only [h1tasks]
      rw [getElem_set_set hj hjl, if_pos rfl]
    · have hil : s.tasks.findIdx (fun t => t.id = a) <
          ((s.tasks.set (s.tasks.findIdx (fun t => t.id = a))
              s.tasks[s.tasks.findIdx (fun t => t.id = b)]).set
            (s.tasks.findIdx (fun t => t.id = b))
            s.tasks[s.tasks.findIdx (fun t => t.id = a)]).length := by
        simpa using hi
      simp only [h1tasks]
      rw [getElem_set_set hi hil, if_neg (fun h => hij h.symm), if_pos rfl]
    · intro k hk hk2 hka hkb
      have hkl : k <
          ((s.tasks.set (s.tasks.findIdx (fun t => t.id = a))
              s.tasks[s.tasks.findIdx (fun t => t.id = b)]).set
            (s.tasks.findIdx (fun t => t.id = b))
            s.tasks[s.tasks.findIdx (fun t => t.id = a)]).length := by
        simpa using hk
      simp only [h1tasks]
      rw [getElem_set_set hk hkl, if_neg (fun h => hkb h.symm), if_neg (fun h => hka h.symm)]
  · intro hpa
    have hi : s.tasks.findIdx (fun t => t.id = a) < s.tasks.length :=
      (present_iff_findIdx_lt s a).mp hpa
    obtain ⟨htasks, hsort⟩ := reorderTasks_present a a s hi hi
    refine ⟨?_, hsort⟩
    rw [htasks]
    exact set_self_twice s.tasks _ hi

/-- Claim C6, counterexample to the claim as stated: with a single task of
id `"a"` and sort key `'date-desc'`, `reorder("a", "a")` is not a no-op —
the sort key becomes `'manual'` and the state is re-persisted. -/
theorem C6_counterexample :
    (TaskManager.reorderTasks "a" "a" cexState6).currentSort ≠ cexState6.currentSort
  ∧ (TaskManager.reorderTasks "a" "a" cexState6).storage ≠ cexState6.storage := by
  exact ⟨by decide, by decide⟩

/-- Claim C6, witness: the amended theorem applied at concrete states — an
absent id is a full no-op, a present distinct pair swaps (length kept),
and an equal present pair keeps the sequence but flips the sort key. -/
theorem C6_reorder_swap_witness :
    TaskManager.reorderTasks "zzz" "a" wState5 = wState5
  ∧ (TaskManager.reorderTasks "a" "c" wState5).tasks.length = wState5.tasks.length
  ∧ (TaskManager.reorderTasks "a" "a" wState5).tasks = wState5.tasks
  ∧ (TaskManager.reorderTasks "a" "a" wState5).currentSort = "manual" := by
  refine ⟨(C6_reorder_swap wState5 "zzz" "a").1 (Or.inl (by decide)), ?_, ?_, ?_⟩
  · exact ((C6_reorder_swap wState5 "a" "c").2.1 (by decide)
      (by decide) (by decide) (by decide) (by decide)).1
  · exact ((C6_reorder_swap wState5 "a" "a").2.2 (by decide)).1
  · exact ((C6_reorder_swap wState5 "a" "a").2.2 (by decide)).2

/-- Claim C7: `load()` is total — its whole body is inside `try`/`catch`,
so no error reaches the caller — and on the startup state (the constructor
calls `load()` with an empty collection) every failing load (missing
stored value, unparseable blob, or a record the constructor rejects)
leaves the manager with the empty task collection; moreover from any state
a caught error always yields the empty collection. -/
theorem C7_load_failure_safe (st : Option Stored) (h : loadFailure st) :
    (TaskManager.load (TaskManager.initState st)).tasks = []
  ∧ ∀ (s : ManagerState) (e : String),
      TaskManager.loadAttempt s.storage s.tasks = Except.error e →
      (TaskManager.load s).tasks = [] := by
  constructor
  · rcases h with rfl | rfl | ⟨ds, e, rfl, hmap⟩
    · rfl
    · rfl
    · unfold TaskManager.load TaskManager.initState TaskManager.loadAttempt
      simp only [hmap]
  · intro s e he
    unfold TaskManager.load
    rw [he]

/-- Claim C7, witness: a junk blob loads as the empty collection. -/
theorem C7_load_failure_safe_witness :
    (TaskManager.load (TaskManager.initState (some Stored.junk))).tasks = [] :=
  (C7_load_failure_safe (some Stored.junk) (Or.inr (Or.inl rfl))).1

/-- Claim C8: the query and view-state methods are frame-safe — reading the
filtered view, and setting the filter, the search text or any sort key,
leave the stored task sequence (hence its order) and the persisted blob
untouched; the sort happens only on the returned copy. -/
theorem C8_view_frame (s : ManagerState) (status text ord : String) :
    TaskManager.getFilteredTasksM s = (TaskManager.getFilteredTasks s, s)
  ∧ (TaskManager.filterByStatus status s).2.tasks = s.tasks
  ∧ (TaskManager.filterByStatus status s).2.storage = s.storage
  ∧ (TaskManager.search text s).2.tasks = s.tasks
  ∧ (TaskManager.search text s).2.storage = s.storage
  ∧ (TaskManager.sortByDate ord s).2.tasks = s.tasks
  ∧ (TaskManager.sortByDate ord s).2.storage = s.storage
  ∧ (TaskManager.sortByTitle ord s).2.tasks = s.tasks
  ∧ (TaskManager.sortByTitle ord s).2.storage = s.storage
  ∧ (TaskManager.sortByPriority ord s).2.tasks = s.tasks
  ∧ (TaskManager.sortByPriority ord s).2.storage = s.storage :=
  ⟨rfl, rfl, rfl, rfl, rfl, rfl, rfl, rfl, rfl, rfl, rfl⟩

/-- The digit characters of the decimal rendering are never an underscore. -/
theorem digitChar_ne_underscore (d : Nat) : digitChar d ≠ '_' := by
  unfold digitChar
  split <;> decide

/-- `digitVal` inverts `digitChar` on single digits. -/
theorem digitVal_digitChar (m : Nat) (hm : m < 10) : digitVal (digitChar m) = m := by
  interval_cases m <;> rfl

/-- Rendering the value zero appends nothing. -/
theorem natDecAux_zero (fuel : Nat) (acc : List Char) : natDecAux fuel 0 acc = acc := by
  cases fuel <;> rfl

/-- The accumulator is just appended behind the produced digits. -/
theorem natDecAux_append (fuel n : Nat) (acc : List Char) :
    natDecAux fuel n acc = natDecAux fuel n [] ++ acc := by
  induction fuel generalizing n acc with
  | zero => rfl
  | succ f ih =>
    by_cases hn : n = 0
    · subst hn; simp [natDecAux]
    · show natDecAux (f + 1) n acc = natDecAux (f + 1) n [] ++ acc
      unfold natDecAux
      rw [if_neg hn, if_neg hn]
      rw [ih (n / 10) (digitChar (n % 10) :: acc), ih (n / 10) [digitChar (n % 10)]]
      simp

/-- The digit loop only ever emits digit characters, never an underscore. -/
theorem mem_natDecAux_ne_underscore (fuel : Nat) :
    ∀ (n : Nat) (acc : List Char), (∀ c ∈ acc, c ≠ '_') →
      ∀ c ∈ natDecAux fuel n acc, c ≠ '_' := by
  induction fuel with
  | zero => intro n acc hacc c hc; exact hacc c hc
  | succ f ih =>
    intro n acc hacc c hc
    by_cases hn : n = 0
    · subst hn
      rw [natDecAux_zero] at hc
      exact hacc c hc
    · unfold natDecAux at hc
      rw [if_neg hn] at hc
      refine ih (n / 10) (digitChar (n % 10) :: acc) ?_ c hc
      intro x hx
      rcases hx with _ | hx
      · exact digitChar_ne_underscore _
      · exact hacc x (by assumption)

/-- Evaluating a digit string after appending one digit. -/
theorem lval_append_one (xs : List Char) (c : Char) :
    lval (xs ++ [c]) = 10 * lval xs + digitVal c := by
  unfold lval
  rw [List.foldl_append]
  rfl

/-- Given enough fuel, the digit loop renders exactly the value `n`. -/
theorem lval_natDecAux (fuel : Nat) :
    ∀ n : Nat, 0 < n → n ≤ fuel → lval (natDecAux fuel n []) = n := by
  induction fuel with
  | zero => intro n h1 h2; omega
  | succ f ih =>
    intro n h1 h2
    have hn : n ≠ 0 := Nat.pos_iff_ne_zero.mp h1
    unfold natDecAux
    rw [if_neg hn]
    rw [natDecAux_append]
    rw [lval_append_one]
    rw [digitVal_digitChar _ (Nat.mod_lt n (by omega))]
    by_cases hq : n / 10 = 0
    · rw [hq, natDecAux_zero]
      have h0 : lval [] = 0 := rfl
      rw [h0]
      omega
    · have hq1 : 0 < n / 10 := Nat.pos_iff_ne_zero.mpr hq
      have hq2 : n / 10 ≤ f := by
        have := Nat.div_lt_self h1 (by omega : 1 < 10)
        omega
      rw [ih (n / 10) hq1 hq2]
      omega

/-- `lval` is a left inverse of the decimal rendering. -/
theorem lval_natDecimal (n : Nat) : lval (natDecimal n).data = n := by
  unfold natDecimal
  by_cases hn : n = 0
  · subst hn; rfl
  · rw [if_neg hn]
    exact lval_natDecAux n n (by omega) (by omega)

/-- The decimal rendering of a natural number is injective. -/
theorem natDecimal_inj {n m : Nat} (h : natDecimal n = natDecimal m) : n = m := by
  have := congrArg (fun s : String => lval s.data) h
  simpa [lval_natDecimal] using this

/-- The decimal timestamp inside a generated id contains no underscore. -/
theorem noUnderscore_natDecimal (n : Nat) : noUnderscore (natDecimal n) := by
  unfold noUnderscore natDecimal
  by_cases hn : n = 0
  · subst hn; intro c hc; simp at hc; subst hc; decide
  · rw [if_neg hn]
    intro c hc
    exact mem_natDecAux_ne_underscore n n [] (by intro x hx; cases hx) c hc

/-- Splitting two lists at a separator absent from both prefixes is
unambiguous. -/
theorem split_at_sep :
    ∀ (xs1 : List Char) (xs2 : List Char) (ys1 ys2 : List Char),
      ('_' ∉ xs1) → ('_' ∉ xs2) →
      xs1 ++ '_' :: ys1 = xs2 ++ '_' :: ys2 → xs1 = xs2 ∧ ys1 = ys2 := by
  intro xs1
  induction xs1 with
  | nil =>
    intro xs2 ys1 ys2 h1 h2 heq
    cases xs2 with
    | nil => simpa using heq
    | cons c t =>
      exfalso
      simp at heq
      apply h2
      rw [← heq.1]
      exact List.mem_cons_self _ _
  | cons c t ih =>
    intro xs2 ys1 ys2 h1 h2 heq
    cases xs2 with
    | nil =>
      exfalso
      simp at heq
      apply h1
      rw [heq.1]
      exact List.mem_cons_self _ _
    | cons c2 t2 =>
      simp only [List.cons_append, List.cons.injEq] at heq
      obtain ⟨hc, ht⟩ := heq
      have h1t : '_' ∉ t := fun hx => h1 (List.mem_cons_of_mem _ hx)
      have h2t : '_' ∉ t2 := fun hx => h2 (List.mem_cons_of_mem _ hx)
      obtain ⟨e1, e2⟩ := ih t2 ys1 ys2 h1t h2t ht
      exact ⟨by rw [hc, e1], e2⟩

/-- A generated id determines the clock reading and the random suffix: the
decimal part is underscore-free, so the first underscore after the fixed
prefix is an unambiguous separator. -/
theorem generateId_inj {n1 n2 : Nat} {r1 r2 : String}
    (h : Task.generateId n1 r1 = Task.generateId n2 r2) : n1 = n2 ∧ r1 = r2 := by
  unfold Task.generateId at h
  have hd := congrArg String.data h
  simp only [String.data_append] at hd
  have hpre : (natDecimal n1).data ++ "_".data ++ r1.data =
      (natDecimal n2).data ++ "_".data ++ r2.data := by
    have hd2 : "task_".data ++ ((natDecimal n1).data ++ ("_".data ++ r1.data)) =
        "task_".data ++ ((natDecimal n2).data ++ ("_".data ++ r2.data)) := by
      simpa [List.append_assoc] using hd
    have := List.append_cancel_left hd2
    simpa [List.append_assoc] using this
  have hsep : (natDecimal n1).data ++ '_' :: r1.data =
      (natDecimal n2).data ++ '_' :: r2.data := by
    simpa using hpre
  have hnu1 : '_' ∉ (natDecimal n1).data := by
    intro hx
    exact noUnderscore_natDecimal n1 '_' hx rfl
  have hnu2 : '_' ∉ (natDecimal n2).data := by
    intro hx
    exact noUnderscore_natDecimal n2 '_' hx rfl
  obtain ⟨e1, e2⟩ := split_at_sep _ _ _ _ hnu1 hnu2 hsep
  constructor
  · exact natDecimal_inj (String.ext e1)
  · exact String.ext e2

/-- Claim C9 (amended): construction with a blank or whitespace-only title
always fails with the validation error; with a title non-empty after trim
and a status in the closed set it always succeeds; the assigned id is
`generateId(now, rand)`, which is injective in the pair of nondeterministic
draws — so the new id is distinct from every other task's id exactly when
no two constructions share both the millisecond clock reading and the
random suffix, a property the code itself does not enforce. -/
theorem C9_create_validation (ti de st pr : String) (n : Nat) (r : String)
    (n1 n2 : Nat) (r1 r2 : String) :
    (jsTrim ti = "" → Task.create ti de st pr n r = Except.error titleEmptyError)
  ∧ (jsTrim ti ≠ "" → validStatuses.contains st = true →
      Task.create ti de st pr n r = Except.ok (Task.buildNew ti de st pr n r))
  ∧ (Task.buildNew ti de st pr n r).id = Task.generateId n r
  ∧ ((n1, r1) ≠ (n2, r2) → Task.generateId n1 r1 ≠ Task.generateId n2 r2) := by
  refine ⟨?_, ?_, rfl, ?_⟩
  · intro h
    unfold Task.create Task.validateInputs
    rw [if_pos h]
  · intro hti hst
    have hst2 : st ∈ validStatuses := by simpa using hst
    unfold Task.create Task.validateInputs
    simp [hti, hst2]
  · intro hne heq
    obtain ⟨e1, e2⟩ := generateId_inj heq
    exact hne (by rw [e1, e2])

/-- Claim C9, counterexample to the claim as stated: two successful
constructions from the same clock reading and random suffix yield two
distinct tasks with the very same id — the id is not fresh. -/
theorem C9_counterexample :
    Task.create "Tâche A" "" "à faire" "moyenne" 7 "r1x" =
      Except.ok (Task.buildNew "Tâche A" "" "à faire" "moyenne" 7 "r1x")
  ∧ Task.create "Tâche B" "" "à faire" "moyenne" 7 "r1x" =
      Except.ok (Task.buildNew "Tâche B" "" "à faire" "moyenne" 7 "r1x")
  ∧ Task.buildNew "Tâche A" "" "à faire" "moyenne" 7 "r1x" ≠
      Task.buildNew "Tâche B" "" "à faire" "moyenne" 7 "r1x"
  ∧ (Task.buildNew "Tâche A" "" "à faire" "moyenne" 7 "r1x").id =
      (Task.buildNew "Tâche B" "" "à faire" "moyenne" 7 "r1x").id := by
  exact ⟨rfl, rfl, by decide, rfl⟩

/-- Claim C9, witness: the amended theorem applied at concrete inputs. -/
theorem C9_create_validation_witness :
    Task.create "   " "" "à faire" "moyenne" 0 "r" = Except.error titleEmptyError
  ∧ Task.create "Tâche" "" "à faire" "moyenne" 0 "r" =
      Except.ok (Task.buildNew "Tâche" "" "à faire" "moyenne" 0 "r")
  ∧ Task.generateId 3 "abc" ≠ Task.generateId 4 "abc" :=
  ⟨(C9_create_validation "   " "" "à faire" "moyenne" 0 "r" 0 0 "" "").1 (by decide),
   (C9_create_validation "Tâche" "" "à faire" "moyenne" 0 "r" 0 0 "" "").2.1
     (by decide) (by decide),
   (C9_create_validation "x" "" "x" "x" 0 "x" 3 4 "abc" "abc").2.2.2 (by decide)⟩

/-- Claim C10: priority is never validated — the constructor (given a valid
title and status) and `Task.update` accept and store any priority string
without error, in contrast to the status checks. -/
theorem C10_priority_unchecked (ti de st prio : String) (n : Nat) (r : String)
    (t : App.Task) (pnew : String)
    (hti : jsTrim ti ≠ "") (hst : validStatuses.contains st = true) :
    Task.create ti de st prio n r = Except.ok (Task.buildNew ti de st prio n r)
  ∧ (Task.buildNew ti de st prio n r).priority = prio
  ∧ Task.update t ⟨none, none, none, some pnew⟩ = ({ t with priority := pnew }, none) := by
  refine ⟨?_, rfl, rfl⟩
  have hst2 : st ∈ validStatuses := by simpa using hst
  unfold Task.create Task.validateInputs
  simp [hti, hst2]

/-- Claim C10, witness: a priority string far outside the closed set is
accepted both at construction and by update. -/
theorem C10_priority_unchecked_witness :
    Task.create "T" "" "à faire" "prio-inconnue" 3 "r" =
      Except.ok (Task.buildNew "T" "" "à faire" "prio-inconnue" 3 "r")
  ∧ (Task.buildNew "T" "" "à faire" "prio-inconnue" 3 "r").priority = "prio-inconnue"
  ∧ Task.update wRoundTask ⟨none, none, none, some "XXL"⟩ =
      ({ wRoundTask with priority := "XXL" }, none) :=
  C10_priority_unchecked "T" "" "à faire" "prio-inconnue" 3 "r" wRoundTask "XXL"
    (by decide) (by decide)

end App
